import Mathlib

/-!
Verification of the PSBT output-record codec (`psbt/partial_output.go`).

The file embeds the `POutput` data model together with its `serialize` and
`deserialize` routines as pure Lean functions over byte lists (bytes are
`Nat`s).  The helpers that `partial_output.go` calls but that live in other
files of the package (`getKey`, the var-byte reader, the field validators,
the derivation-value codecs and the sorters) are modelled from the spec's
description of them; each such definition carries a doc comment saying so.
Go's in-place mutation of the receiver is made explicit: `deserialize`
returns the final receiver state next to the optional error, and `serialize`
returns the emitted bytes next to the post-call receiver state (the Go code
sorts the two derivation slices in place).
-/

namespace Psbt

/-- Decode/encode errors.  `DuplicateKey`, `InvalidKeydata` and
`InvalidPsbtFormat` are the sentinel errors of the source file; `Truncated`,
`OversizedValue` and `Malformed` stand for the error kinds of the helper
layer as the spec names them. -/
inductive PsbtError where
  | DuplicateKey
  | InvalidKeydata
  | InvalidPsbtFormat
  | Truncated
  | OversizedValue
  | Malformed
deriving DecidableEq, Repr

/-- One BIP32 derivation entry, as in the package's `Bip32Derivation`
struct: a compressed public key, a master-key fingerprint (a `uint32`) and
a derivation path of `uint32` elements. -/
structure Bip32Derivation where
  PubKey : List Nat
  MasterKeyFingerprint : Nat
  Bip32Path : List Nat
deriving DecidableEq, Repr

/-- One Taproot derivation entry, as in the package's
`TaprootBip32Derivation` struct: an x-only key, the leaf hashes, a
fingerprint and a path. -/
structure TaprootBip32Derivation where
  XOnlyPubKey : List Nat
  LeafHashes : List (List Nat)
  MasterKeyFingerprint : Nat
  Bip32Path : List Nat
deriving DecidableEq, Repr

/-- The `POutput` struct of `partial_output.go`.  Go `nil` slices for the
four scalar byte fields become `none`; the two derivation slices become
lists. -/
structure POutput where
  RedeemScript : Option (List Nat) := none
  WitnessScript : Option (List Nat) := none
  Bip32Derivation : List Bip32Derivation := []
  TaprootInternalKey : Option (List Nat) := none
  TaprootTapTree : Option (List Nat) := none
  TaprootBip32Derivation : List TaprootBip32Derivation := []
deriving DecidableEq, Repr

/-- The zero value of `POutput`, the state of a freshly allocated receiver. -/
def POutput.empty : POutput := {}

/-- Modelled from the spec: the stream-terminating separator is a single
reserved byte value distinct from all type codes; the spec's end-to-end
example fixes it as `0xFF`. -/
def separatorByte : Nat := 0xFF

/-- Modelled from the spec: `RedeemScript` field type code, `0x01` in the
spec's end-to-end example. -/
def RedeemScriptOutputType : Nat := 1

/-- Modelled from the spec: `WitnessScript` field type code (the spec pins
only the redeem-script code and the separator; the remaining codes are
arbitrary distinct byte values). -/
def WitnessScriptOutputType : Nat := 2

/-- Modelled from the spec: BIP32-derivation field type code. -/
def Bip32DerivationOutputType : Nat := 3

/-- Modelled from the spec: Taproot-internal-key field type code. -/
def TaprootInternalKeyOutputType : Nat := 4

/-- Modelled from the spec: Taproot-tap-tree field type code. -/
def TaprootTapTreeType : Nat := 5

/-- Modelled from the spec: Taproot-derivation field type code. -/
def TaprootBip32DerivationOutputType : Nat := 6

/-- Modelled from the spec: the hard maximum value length guarding against
oversized allocations.  The spec treats the constant as configuration; the
concrete figure is the format's usual 4,000,000. -/
def MaxPsbtValueLength : Nat := 4000000

/-- Little-endian 4-byte encoding of a `uint32`. -/
def toLE32 (n : Nat) : List Nat :=
  [n % 256, n / 256 % 256, n / 65536 % 256, n / 16777216 % 256]

/-- Little-endian reading of 4 bytes as a `uint32`. -/
def fromLE32 (b0 b1 b2 b3 : Nat) : Nat :=
  b0 + 256 * b1 + 65536 * b2 + 16777216 * b3

/-- Little-endian 8-byte encoding of a `uint64`. -/
def toLE64 (n : Nat) : List Nat :=
  toLE32 (n % 4294967296) ++ toLE32 (n / 4294967296)

/-- Modelled from the spec: the format's native variable-length integer
encoding (Bitcoin CompactSize).  Values below `0xFD` are one byte; larger
values use a discriminator byte followed by a 2-, 4- or 8-byte
little-endian payload. -/
def writeVarInt (n : Nat) : List Nat :=
  if n < 0xfd then [n]
  else if n ≤ 0xffff then [0xfd, n % 256, n / 256 % 256]
  else if n ≤ 0xffffffff then 0xfe :: toLE32 n
  else 0xff :: toLE64 n

/-- Modelled from the spec: reading one variable-length integer, enforcing
the minimal (canonical) encoding as the wire reader does. -/
def readVarInt : List Nat → Except PsbtError (Nat × List Nat)
  | [] => .error .Truncated
  | b :: rest =>
    if b < 0xfd then .ok (b, rest)
    else if b = 0xfd then
      match rest with
      | x0 :: x1 :: r =>
        let v := x0 + 256 * x1
        if v < 0xfd then .error .Malformed else .ok (v, r)
      | _ => .error .Truncated
    else if b = 0xfe then
      match rest with
      | x0 :: x1 :: x2 :: x3 :: r =>
        let v := fromLE32 x0 x1 x2 x3
        if v ≤ 0xffff then .error .Malformed else .ok (v, r)
      | _ => .error .Truncated
    else
      match rest with
      | x0 :: x1 :: x2 :: x3 :: x4 :: x5 :: x6 :: x7 :: r =>
        let v := fromLE32 x0 x1 x2 x3 + 4294967296 * fromLE32 x4 x5 x6 x7
        if v ≤ 0xffffffff then .error .Malformed else .ok (v, r)
      | _ => .error .Truncated

/-- Modelled from the spec: `readValue` of the Key-Value Primitive — a
length-prefixed byte blob bounded by `maxAllowed`; fails `OversizedValue`
when the declared length exceeds the bound and `Truncated` when the stream
ends early.  This is the shape of `wire.ReadVarBytes`. -/
def readVarBytes (maxAllowed : Nat) (s : List Nat) :
    Except PsbtError (List Nat × List Nat) :=
  match readVarInt s with
  | .error e => .error e
  | .ok (count, rest) =>
    if count > maxAllowed then .error .OversizedValue
    else if rest.length < count then .error .Truncated
    else .ok (rest.take count, rest.drop count)

/-- Modelled from the spec: `getKey` / `readField` of the Key-Value
Primitive.  Reads one type byte; the reserved separator value signals
end-of-map (returned as `none`).  Otherwise reads the remainder of the key
under the key-length-prefix convention; an empty key payload is the
`nil`-equivalent empty list. -/
def getKey (s : List Nat) : Except PsbtError (Option (Nat × List Nat) × List Nat) :=
  match s with
  | [] => .error .Truncated
  | t :: rest =>
    if t = separatorByte then .ok (none, rest)
    else
      match readVarInt rest with
      | .error e => .error e
      | .ok (klen, r2) =>
        if r2.length < klen then .error .Truncated
        else .ok (some (t, r2.take klen), r2.drop klen)

/-- Modelled from the spec: `writeField` of the Key-Value Primitive — type
byte, key length-prefix and key bytes, then value length-prefix and value
bytes (a missing key payload is written as a zero length prefix, as in the
spec's end-to-end example). -/
def serializeKVPairWithType (t : Nat) (keydata value : List Nat) : List Nat :=
  t :: (writeVarInt keydata.length ++ keydata ++ writeVarInt value.length ++ value)

/-- Modelled from the spec: `validateCompressedPublicKey` — length 33 with
a valid compressed-point leading byte (`0x02` or `0x03`). -/
def validatePubkey (pubKey : List Nat) : Bool :=
  pubKey.length == 33 && (pubKey.head? == some 2 || pubKey.head? == some 3)

/-- Modelled from the spec: `validateXOnlyPublicKey` — true iff the length
is exactly 32. -/
def validateXOnlyPubkey (pubKey : List Nat) : Bool :=
  pubKey.length == 32

/-- Reads consecutive little-endian `uint32`s until fewer than four bytes
remain. -/
def readUint32s : List Nat → List Nat
  | b0 :: b1 :: b2 :: b3 :: rest => fromLE32 b0 b1 b2 b3 :: readUint32s rest
  | _ => []

/-- Modelled from the spec: `parseBip32Derivation` — fails `Malformed`
unless the length is `4 + 4*k` with `k ≥ 0`; the first four bytes are the
little-endian master fingerprint and the rest are little-endian `uint32`
path elements. -/
def readBip32Derivation (value : List Nat) :
    Except PsbtError (Nat × List Nat) :=
  match value with
  | b0 :: b1 :: b2 :: b3 :: rest =>
    if rest.length % 4 = 0 then
      .ok (fromLE32 b0 b1 b2 b3, readUint32s rest)
    else .error .Malformed
  | _ => .error .Malformed

/-- `SerializeBIP32Derivation`: fingerprint then path, all little-endian
`uint32`s — the pure inverse of `readBip32Derivation`. -/
def SerializeBIP32Derivation (masterKeyFingerprint : Nat) (bip32Path : List Nat) :
    List Nat :=
  toLE32 masterKeyFingerprint ++ (bip32Path.map toLE32).flatten

/-- Splits off `n` chunks of 32 bytes. -/
def chunks32 : Nat → List Nat → List (List Nat)
  | 0, _ => []
  | n + 1, s => s.take 32 :: chunks32 n (s.drop 32)

/-- Modelled from the spec: `parseTaprootBip32Derivation` — the value is
`[varint leafHashCount][count × 32-byte hash][4-byte fingerprint][uint32
path to end]`; fails `Malformed` on any length mismatch.  The entry's
x-only key is the record's key data. -/
def readTaprootBip32Derivation (keydata value : List Nat) :
    Except PsbtError TaprootBip32Derivation :=
  match readVarInt value with
  | .error e => .error e
  | .ok (numHashes, rest) =>
    if rest.length < numHashes * 32 then .error .Truncated
    else
      match rest.drop (numHashes * 32) with
      | b0 :: b1 :: b2 :: b3 :: tail =>
        if tail.length % 4 = 0 then
          .ok ⟨keydata, chunks32 numHashes (rest.take (numHashes * 32)),
               fromLE32 b0 b1 b2 b3, readUint32s tail⟩
        else .error .Malformed
      | _ => .error .Malformed

/-- Modelled from the spec: the serializer inverse of
`parseTaprootBip32Derivation`. -/
def serializeTaprootBip32Derivation (d : TaprootBip32Derivation) : List Nat :=
  writeVarInt d.LeafHashes.length ++ d.LeafHashes.flatten ++
    toLE32 d.MasterKeyFingerprint ++ (d.Bip32Path.map toLE32).flatten

/-- Strict lexicographic order on byte lists, the shape of
`bytes.Compare a b < 0`. -/
def lexLt : List Nat → List Nat → Bool
  | [], [] => false
  | [], _ :: _ => true
  | _ :: _, [] => false
  | a :: as, b :: bs => a < b || (a == b && lexLt as bs)

/-- Modelled from the spec: `SortBefore`, the dedicated Taproot ordering
rule — x-only key bytes compared lexicographically. -/
def TaprootBip32Derivation.SortBefore (s other : TaprootBip32Derivation) : Bool :=
  lexLt s.XOnlyPubKey other.XOnlyPubKey

/-- Modelled from the spec: the sort relation of `Bip32Sorter` — ascending
by raw public-key bytes.  `sort.Sort` with `Less` yields an order in which
no later element is `Less` than an earlier one, which is this non-strict
relation. -/
def bip32SorterLe (a b : Bip32Derivation) : Bool :=
  !(lexLt b.PubKey a.PubKey)

/-- Modelled from the spec: the non-strict relation induced by `SortBefore`
under `sort.Slice`. -/
def taprootSorterLe (a b : TaprootBip32Derivation) : Bool :=
  !(TaprootBip32Derivation.SortBefore b a)

/-- The dispatch switch of `deserialize` for one key-value record: the body
of the `switch OutputType(keyint)` statement of `partial_output.go`,
returning the updated receiver or the error that aborts the decode. -/
def outputStep (po : POutput) (keyint : Nat) (keydata value : List Nat) :
    Except PsbtError POutput :=
  if keyint = RedeemScriptOutputType then
    if po.RedeemScript.isSome then .error .DuplicateKey
    else if !keydata.isEmpty then .error .InvalidKeydata
    else .ok { po with RedeemScript := some value }
  else if keyint = WitnessScriptOutputType then
    if po.WitnessScript.isSome then .error .DuplicateKey
    else if !keydata.isEmpty then .error .InvalidKeydata
    else .ok { po with WitnessScript := some value }
  else if keyint = Bip32DerivationOutputType then
    if !validatePubkey keydata then .error .InvalidKeydata
    else
      match readBip32Derivation value with
      | .error e => .error e
      | .ok (master, derivationPath) =>
        if po.Bip32Derivation.any fun x => x.PubKey == keydata then
          .error .DuplicateKey
        else
          .ok { po with Bip32Derivation :=
                  po.Bip32Derivation ++ [⟨keydata, master, derivationPath⟩] }
  else if keyint = TaprootInternalKeyOutputType then
    if po.TaprootInternalKey.isSome then .error .DuplicateKey
    else if !keydata.isEmpty then .error .InvalidKeydata
    else if !validateXOnlyPubkey value then .error .InvalidKeydata
    else .ok { po with TaprootInternalKey := some value }
  else if keyint = TaprootTapTreeType then
    if po.TaprootTapTree.isSome then .error .DuplicateKey
    else if !keydata.isEmpty then .error .InvalidKeydata
    else .ok { po with TaprootTapTree := some value }
  else if keyint = TaprootBip32DerivationOutputType then
    if !validateXOnlyPubkey keydata then .error .InvalidKeydata
    else
      match readTaprootBip32Derivation keydata value with
      | .error e => .error e
      | .ok taprootDerivation =>
        if po.TaprootBip32Derivation.any fun x => x.XOnlyPubKey == keydata then
          .error .DuplicateKey
        else
          .ok { po with TaprootBip32Derivation :=
                  po.TaprootBip32Derivation ++ [taprootDerivation] }
  else .error .InvalidPsbtFormat

/-- The decode loop of `deserialize`, with an explicit fuel argument (each
iteration consumes at least the type byte, so `s.length + 1` fuel always
suffices).  Returns the final receiver state next to the optional error,
making Go's in-place population of the receiver explicit. -/
def deserializeLoop : Nat → POutput → List Nat → POutput × Option PsbtError
  | 0, po, _ => (po, some .Truncated)
  | fuel + 1, po, s =>
    match getKey s with
    | .error e => (po, some e)
    | .ok (none, _) => (po, none)
    | .ok (some (keyint, keydata), r1) =>
      match readVarBytes MaxPsbtValueLength r1 with
      | .error e => (po, some e)
      | .ok (value, r2) =>
        match outputStep po keyint keydata value with
        | .error e => (po, some e)
        | .ok po2 => deserializeLoop fuel po2 r2

/-- `deserialize` of `partial_output.go`: reads key-value records until the
separator, dispatching each through the type switch. -/
def POutput.deserialize (po : POutput) (s : List Nat) : POutput × Option PsbtError :=
  deserializeLoop (s.length + 1) po s

/-- `serialize` of `partial_output.go`: emits the present fields in the
fixed order redeem script, witness script, sorted BIP32 derivations,
Taproot internal key, tap tree, sorted Taproot derivations.  The Go code
sorts the two derivation slices in place before walking them; the returned
`POutput` is the receiver's state after the call.  No separator is
written. -/
def POutput.serialize (po : POutput) : List Nat × POutput :=
  let outRS := match po.RedeemScript with
    | some s => serializeKVPairWithType RedeemScriptOutputType [] s
    | none => []
  let outWS := match po.WitnessScript with
    | some s => serializeKVPairWithType WitnessScriptOutputType [] s
    | none => []
  let sortedBip32 := po.Bip32Derivation.mergeSort bip32SorterLe
  let outBip32 := (sortedBip32.map fun kd =>
    serializeKVPairWithType Bip32DerivationOutputType kd.PubKey
      (SerializeBIP32Derivation kd.MasterKeyFingerprint kd.Bip32Path)).flatten
  let outTIK := match po.TaprootInternalKey with
    | some k => serializeKVPairWithType TaprootInternalKeyOutputType [] k
    | none => []
  let outTTT := match po.TaprootTapTree with
    | some t => serializeKVPairWithType TaprootTapTreeType [] t
    | none => []
  let sortedTap := po.TaprootBip32Derivation.mergeSort taprootSorterLe
  let outTap := (sortedTap.map fun derivation =>
    serializeKVPairWithType TaprootBip32DerivationOutputType
      derivation.XOnlyPubKey
      (serializeTaprootBip32Derivation derivation)).flatten
  (outRS ++ outWS ++ outBip32 ++ outTIK ++ outTTT ++ outTap,
   { po with Bip32Derivation := sortedBip32,
             TaprootBip32Derivation := sortedTap })

/-- A validly constructed BIP32 derivation entry: structurally valid public
key, `uint32` bounds on fingerprint and path elements, and a value short
enough for the length bound. -/
def Bip32Derivation.validEntry (d : Bip32Derivation) : Bool :=
  validatePubkey d.PubKey &&
  d.MasterKeyFingerprint < 4294967296 &&
  d.Bip32Path.all (fun x => x < 4294967296) &&
  4 + 4 * d.Bip32Path.length ≤ MaxPsbtValueLength

/-- A validly constructed Taproot derivation entry: structurally valid
x-only key, 32-byte leaf hashes, `uint32` bounds, and a serialized value
within the length bound. -/
def TaprootBip32Derivation.validEntry (d : TaprootBip32Derivation) : Bool :=
  validateXOnlyPubkey d.XOnlyPubKey &&
  d.LeafHashes.all (fun h => h.length == 32) &&
  d.MasterKeyFingerprint < 4294967296 &&
  d.Bip32Path.all (fun x => x < 4294967296) &&
  (serializeTaprootBip32Derivation d).length ≤ MaxPsbtValueLength

/-- A validly constructed output record: scripts and tap tree within the
value-length bound, a structurally valid Taproot internal key when present,
valid derivation entries, and key uniqueness inside each derivation list. -/
def POutput.validRecord (po : POutput) : Bool :=
  (match po.RedeemScript with
    | some s => s.length ≤ MaxPsbtValueLength
    | none => true) &&
  (match po.WitnessScript with
    | some s => s.length ≤ MaxPsbtValueLength
    | none => true) &&
  (match po.TaprootInternalKey with
    | some k => validateXOnlyPubkey k
    | none => true) &&
  (match po.TaprootTapTree with
    | some t => t.length ≤ MaxPsbtValueLength
    | none => true) &&
  po.Bip32Derivation.all (fun d => d.validEntry) &&
  (po.Bip32Derivation.map (fun d => d.PubKey)).Nodup &&
  po.TaprootBip32Derivation.all (fun d => d.validEntry) &&
  (po.TaprootBip32Derivation.map (fun d => d.XOnlyPubKey)).Nodup

/-- Bytes emitted by `serialize` for the redeem-script field. -/
def rsSegment : Option (List Nat) → List Nat
  | some s => serializeKVPairWithType RedeemScriptOutputType [] s
  | none => []

/-- Bytes emitted by `serialize` for the witness-script field. -/
def wsSegment : Option (List Nat) → List Nat
  | some s => serializeKVPairWithType WitnessScriptOutputType [] s
  | none => []

/-- Bytes emitted by `serialize` for the Taproot-internal-key field. -/
def tikSegment : Option (List Nat) → List Nat
  | some k => serializeKVPairWithType TaprootInternalKeyOutputType [] k
  | none => []

/-- Bytes emitted by `serialize` for the tap-tree field. -/
def tttSegment : Option (List Nat) → List Nat
  | some t => serializeKVPairWithType TaprootTapTreeType [] t
  | none => []

/-- The key-value record emitted for one BIP32 derivation entry. -/
def bip32KV (kd : Bip32Derivation) : List Nat :=
  serializeKVPairWithType Bip32DerivationOutputType kd.PubKey
    (SerializeBIP32Derivation kd.MasterKeyFingerprint kd.Bip32Path)

/-- The key-value record emitted for one Taproot derivation entry. -/
def tapKV (derivation : TaprootBip32Derivation) : List Nat :=
  serializeKVPairWithType TaprootBip32DerivationOutputType
    derivation.XOnlyPubKey (serializeTaprootBip32Derivation derivation)

/-- `po2` extends `po1`: every scalar field already set in `po1` keeps its
value in `po2`, and `po2`'s derivation lists start with `po1`'s. -/
def POutput.Extends (po2 po1 : POutput) : Prop :=
  (∀ v, po1.RedeemScript = some v → po2.RedeemScript = some v) ∧
  (∀ v, po1.WitnessScript = some v → po2.WitnessScript = some v) ∧
  (∀ v, po1.TaprootInternalKey = some v → po2.TaprootInternalKey = some v) ∧
  (∀ v, po1.TaprootTapTree = some v → po2.TaprootTapTree = some v) ∧
  (∃ l, po2.Bip32Derivation = po1.Bip32Derivation ++ l) ∧
  (∃ l, po2.TaprootBip32Derivation = po1.TaprootBip32Derivation ++ l)

/-- A compressed public key starting `0x02 0xAA`, used in concrete examples. -/
def key02AA : List Nat := 2 :: 170 :: List.replicate 31 0

/-- A compressed public key starting `0x03 0xBB`, used in concrete examples. -/
def key03BB : List Nat := 3 :: 187 :: List.replicate 31 0

/-- A 32-byte x-only key used in concrete examples. -/
def xkeyA : List Nat := 10 :: List.replicate 31 0

/-- A second 32-byte x-only key used in concrete examples. -/
def xkeyB : List Nat := 11 :: List.replicate 31 0

/-- BIP32 entry keyed by `key02AA`. -/
def entryAA : Bip32Derivation := ⟨key02AA, 7, [1, 2]⟩

/-- BIP32 entry keyed by `key03BB`. -/
def entryBB : Bip32Derivation := ⟨key03BB, 9, [5]⟩

/-- Taproot entry keyed by `xkeyA`, with one leaf hash. -/
def tapEntryA : TaprootBip32Derivation := ⟨xkeyA, [List.replicate 32 1], 3, [8]⟩

/-- Taproot entry keyed by `xkeyB`, with no leaf hashes. -/
def tapEntryB : TaprootBip32Derivation := ⟨xkeyB, [], 4, []⟩

/-- A populated output record exercising all six fields, with both
derivation lists deliberately stored in reverse key order. -/
def samplePOutput : POutput where
  RedeemScript := some [0x51]
  WitnessScript := some [0x52, 0x53]
  Bip32Derivation := [entryBB, entryAA]
  TaprootInternalKey := some xkeyA
  TaprootTapTree := some [1, 2, 3]
  TaprootBip32Derivation := [tapEntryB, tapEntryA]

end Psbt

namespace Psbt

theorem fromLE32_split (n : Nat) (h : n < 4294967296) :
    fromLE32 (n % 256) (n / 256 % 256) (n / 65536 % 256) (n / 16777216 % 256) = n := by
  simp only [fromLE32]
  omega

theorem readUint32s_cons4 (a b c d : Nat) (rest : List Nat) :
    readUint32s (a :: b :: c :: d :: rest) = fromLE32 a b c d :: readUint32s rest := rfl

theorem readUint32s_flatten (path : List Nat) (h : ∀ x ∈ path, x < 4294967296) :
    readUint32s ((path.map toLE32).flatten) = path := by
  induction path with
  | nil => rfl
  | cons x xs ih =>
    have hx : x < 4294967296 := h x (by simp)
    simp only [List.map_cons, List.flatten_cons, toLE32, List.cons_append,
      List.nil_append, readUint32s_cons4]
    rw [ih (fun y hy => h y (by simp [hy])), fromLE32_split x hx]

theorem length_flatten_map_toLE32 (path : List Nat) :
    ((path.map toLE32).flatten).length = 4 * path.length := by
  induction path with
  | nil => rfl
  | cons x xs ih =>
    simp only [List.map_cons, List.flatten_cons, List.length_append, ih, toLE32]
    simp only [List.length_cons, List.length_nil]
    omega

theorem readVarInt_writeVarInt (n : Nat) (rest : List Nat)
    (h : n < 18446744073709551616) :
    readVarInt (writeVarInt n ++ rest) = .ok (n, rest) := by
  by_cases h1 : n < 0xfd
  · simp [writeVarInt, readVarInt, h1]
  · by_cases h2 : n ≤ 0xffff
    · have e2 : n % 256 + 256 * (n / 256 % 256) = n := by omega
      simp [writeVarInt, readVarInt, h1, h2, e2]
    · by_cases h3 : n ≤ 0xffffffff
      · have e2 : fromLE32 (n % 256) (n / 256 % 256) (n / 65536 % 256)
            (n / 16777216 % 256) = n := by
          simp only [fromLE32]
          omega
        simp [writeVarInt, readVarInt, toLE32, h1, h2, h3, e2]
      · have e2 : fromLE32 (n % 4294967296 % 256) (n % 4294967296 / 256 % 256)
            (n % 4294967296 / 65536 % 256) (n % 4294967296 / 16777216 % 256) +
            4294967296 * fromLE32 (n / 4294967296 % 256) (n / 4294967296 / 256 % 256)
              (n / 4294967296 / 65536 % 256) (n / 4294967296 / 16777216 % 256) = n := by
          simp only [fromLE32]
          omega
        simp [writeVarInt, readVarInt, toLE64, toLE32, h1, h2, h3, e2]

theorem readVarInt_length {s : List Nat} {n : Nat} {r : List Nat}
    (h : readVarInt s = .ok (n, r)) : r.length < s.length := by
  cases s with
  | nil => simp [readVarInt] at h
  | cons b rest =>
    simp only [readVarInt] at h
    by_cases h1 : b < 0xfd
    · rw [if_pos h1] at h
      cases h
      simp
    · rw [if_neg h1] at h
      by_cases h2 : b = 0xfd
      · rw [if_pos h2] at h
        match rest with
        | [] => simp at h
        | [x0] => simp at h
        | x0 :: x1 :: r2 =>
          simp only at h
          split at h
          · simp at h
          · cases h
            simp
            omega
      · rw [if_neg h2] at h
        by_cases h3 : b = 0xfe
        · rw [if_pos h3] at h
          match rest with
          | [] => simp at h
          | [x0] => simp at h
          | [x0, x1] => simp at h
          | [x0, x1, x2] => simp at h
          | x0 :: x1 :: x2 :: x3 :: r2 =>
            simp only at h
            split at h
            · simp at h
            · cases h
              simp
              omega
        · rw [if_neg h3] at h
          match rest with
          | [] => simp at h
          | [x0] => simp at h
          | [x0, x1] => simp at h
          | [x0, x1, x2] => simp at h
          | [x0, x1, x2, x3] => simp at h
          | [x0, x1, x2, x3, x4] => simp at h
          | [x0, x1, x2, x3, x4, x5] => simp at h
          | [x0, x1, x2, x3, x4, x5, x6] => simp at h
          | x0 :: x1 :: x2 :: x3 :: x4 :: x5 :: x6 :: x7 :: r2 =>
            simp only at h
            split at h
            · simp at h
            · cases h
              simp
              omega

end Psbt

namespace Psbt

theorem getKey_length {s : List Nat} {x : Nat × List Nat} {r : List Nat}
    (h : getKey s = .ok (some x, r)) : r.length < s.length := by
  cases s with
  | nil => simp [getKey] at h
  | cons t rest =>
    simp only [getKey] at h
    split at h
    · simp at h
    · split at h
      · simp at h
      · rename_i klen r2 heq
        split at h
        · simp at h
        · simp only [Except.ok.injEq, Prod.mk.injEq] at h
          have h2 := readVarInt_length heq
          have h3 : (r2.drop klen).length ≤ r2.length := by
            simp [List.length_drop]
          rw [← h.2]
          simp only [List.length_cons]
          omega

theorem readVarBytes_length {m : Nat} {s v r : List Nat}
    (h : readVarBytes m s = .ok (v, r)) : r.length < s.length := by
  simp only [readVarBytes] at h
  split at h
  · simp at h
  · rename_i count rest heq
    split at h
    · simp at h
    · split at h
      · simp at h
      · simp only [Except.ok.injEq, Prod.mk.injEq] at h
        have h2 := readVarInt_length heq
        have h3 : (rest.drop count).length ≤ rest.length := by
          simp [List.length_drop]
        rw [← h.2]
        omega

theorem deserializeLoop_getKey_error {s : List Nat} {e : PsbtError}
    (hk : getKey s = .error e) (fuel : Nat) (po : POutput) :
    deserializeLoop (fuel + 1) po s = (po, some e) := by
  rw [deserializeLoop, hk]

theorem deserializeLoop_getKey_none {s r : List Nat}
    (hk : getKey s = .ok (none, r)) (fuel : Nat) (po : POutput) :
    deserializeLoop (fuel + 1) po s = (po, none) := by
  rw [deserializeLoop, hk]

theorem deserializeLoop_getKey_some {s : List Nat} {keyint : Nat}
    {keydata r1 : List Nat} (hk : getKey s = .ok (some (keyint, keydata), r1))
    (fuel : Nat) (po : POutput) :
    deserializeLoop (fuel + 1) po s =
      match readVarBytes MaxPsbtValueLength r1 with
      | .error e => (po, some e)
      | .ok (value, r2) =>
        match outputStep po keyint keydata value with
        | .error e => (po, some e)
        | .ok po2 => deserializeLoop fuel po2 r2 := by
  rw [deserializeLoop, hk]

theorem deserializeLoop_step {s : List Nat} {keyint : Nat}
    {keydata r1 value r2 : List Nat}
    (hk : getKey s = .ok (some (keyint, keydata), r1))
    (hv : readVarBytes MaxPsbtValueLength r1 = .ok (value, r2))
    (fuel : Nat) (po : POutput) :
    deserializeLoop (fuel + 1) po s =
      match outputStep po keyint keydata value with
      | .error e => (po, some e)
      | .ok po2 => deserializeLoop fuel po2 r2 := by
  rw [deserializeLoop_getKey_some hk, hv]

theorem deserializeLoop_congr : ∀ {fuel fuel' : Nat} {po : POutput} {s : List Nat},
    s.length < fuel → s.length < fuel' →
    deserializeLoop fuel po s = deserializeLoop fuel' po s := by
  intro fuel
  induction fuel with
  | zero =>
    intro fuel' po s h _
    omega
  | succ f ih =>
    intro fuel' po s h h'
    cases fuel' with
    | zero => omega
    | succ f' =>
      cases hk : getKey s with
      | error e =>
        rw [deserializeLoop_getKey_error hk, deserializeLoop_getKey_error hk]
      | ok p =>
        obtain ⟨k, r1⟩ := p
        cases k with
        | none =>
          rw [deserializeLoop_getKey_none hk, deserializeLoop_getKey_none hk]
        | some kv =>
          obtain ⟨keyint, keydata⟩ := kv
          cases hv : readVarBytes MaxPsbtValueLength r1 with
          | error e =>
            have lemA : deserializeLoop (f + 1) po s = (po, some e) := by
              rw [deserializeLoop_getKey_some hk, hv]
            have lemB : deserializeLoop (f' + 1) po s = (po, some e) := by
              rw [deserializeLoop_getKey_some hk, hv]
            rw [lemA, lemB]
          | ok vr =>
            obtain ⟨value, r2⟩ := vr
            cases hs : outputStep po keyint keydata value with
            | error e2 =>
              have lemA : deserializeLoop (f + 1) po s = (po, some e2) := by
                rw [deserializeLoop_step hk hv, hs]
              have lemB : deserializeLoop (f' + 1) po s = (po, some e2) := by
                rw [deserializeLoop_step hk hv, hs]
              rw [lemA, lemB]
            | ok po2 =>
              have lemA : deserializeLoop (f + 1) po s =
                  deserializeLoop f po2 r2 := by
                rw [deserializeLoop_step hk hv, hs]
              have lemB : deserializeLoop (f' + 1) po s =
                  deserializeLoop f' po2 r2 := by
                rw [deserializeLoop_step hk hv, hs]
              rw [lemA, lemB]
              have l1 := getKey_length hk
              have l2 := readVarBytes_length hv
              refine ih ?_ ?_ <;> omega

theorem deserialize_separator (po : POutput) (rest : List Nat) :
    POutput.deserialize po (separatorByte :: rest) = (po, none) := by
  simp [POutput.deserialize, deserializeLoop, getKey]

theorem getKey_record (t : Nat) (kd v rest : List Nat) (ht : t ≠ separatorByte)
    (hk : kd.length < 18446744073709551616) :
    getKey (serializeKVPairWithType t kd v ++ rest) =
      .ok (some (t, kd), writeVarInt v.length ++ (v ++ rest)) := by
  have h1 : serializeKVPairWithType t kd v ++ rest =
      t :: (writeVarInt kd.length ++ (kd ++ (writeVarInt v.length ++ (v ++ rest)))) := by
    simp [serializeKVPairWithType, List.append_assoc]
  rw [h1]
  simp only [getKey, if_neg ht,
    readVarInt_writeVarInt kd.length (kd ++ (writeVarInt v.length ++ (v ++ rest))) hk]
  rw [if_neg (by simp), List.take_left, List.drop_left]

theorem readVarBytes_record (maxA : Nat) (v rest : List Nat)
    (hv : v.length ≤ maxA) (hv64 : v.length < 18446744073709551616) :
    readVarBytes maxA (writeVarInt v.length ++ (v ++ rest)) = .ok (v, rest) := by
  simp only [readVarBytes, readVarInt_writeVarInt v.length (v ++ rest) hv64]
  rw [if_neg (by omega), if_neg (by simp), List.take_left, List.drop_left]

theorem deserialize_record (po : POutput) (t : Nat) (kd v rest : List Nat)
    (ht : t ≠ separatorByte) (hk : kd.length < 18446744073709551616)
    (hv : v.length ≤ MaxPsbtValueLength) :
    POutput.deserialize po (serializeKVPairWithType t kd v ++ rest) =
      match outputStep po t kd v with
      | .error e => (po, some e)
      | .ok po2 => POutput.deserialize po2 rest := by
  have hv64 : v.length < 18446744073709551616 := by
    have hm : MaxPsbtValueLength = 4000000 := rfl
    omega
  have hrest : rest.length < (serializeKVPairWithType t kd v ++ rest).length := by
    simp only [serializeKVPairWithType, List.cons_append, List.length_cons,
      List.length_append]
    omega
  show deserializeLoop _ po _ = _
  rw [deserializeLoop_step (getKey_record t kd v rest ht hk)
    (readVarBytes_record MaxPsbtValueLength v rest hv hv64)]
  cases hs : outputStep po t kd v with
  | error e => rfl
  | ok po2 =>
    exact deserializeLoop_congr (by omega) (by omega)

end Psbt

namespace Psbt

theorem length_SerializeBIP32Derivation (fp : Nat) (path : List Nat) :
    (SerializeBIP32Derivation fp path).length = 4 + 4 * path.length := by
  simp only [SerializeBIP32Derivation, List.length_append,
    length_flatten_map_toLE32, toLE32]
  simp

theorem readBip32_roundtrip (fp : Nat) (path : List Nat)
    (hfp : fp < 4294967296) (hpath : ∀ x ∈ path, x < 4294967296) :
    readBip32Derivation (SerializeBIP32Derivation fp path) = .ok (fp, path) := by
  simp only [SerializeBIP32Derivation, toLE32, List.cons_append, List.nil_append,
    readBip32Derivation]
  rw [if_pos (by rw [length_flatten_map_toLE32]; omega)]
  rw [fromLE32_split fp hfp, readUint32s_flatten path hpath]

theorem length_flatten_32 (hs : List (List Nat)) (h : ∀ x ∈ hs, x.length = 32) :
    hs.flatten.length = 32 * hs.length := by
  induction hs with
  | nil => rfl
  | cons x xs ih =>
    simp only [List.flatten_cons, List.length_append, List.length_cons,
      h x (by simp), ih (fun y hy => h y (by simp [hy]))]
    omega

theorem chunks32_flatten (hs : List (List Nat)) (h : ∀ x ∈ hs, x.length = 32) :
    chunks32 hs.length hs.flatten = hs := by
  induction hs with
  | nil => rfl
  | cons x xs ih =>
    simp only [List.length_cons, List.flatten_cons, chunks32]
    rw [List.take_left' (h x (by simp)), List.drop_left' (h x (by simp))]
    rw [ih (fun y hy => h y (by simp [hy]))]

theorem readTaproot_roundtrip (d : TaprootBip32Derivation)
    (h : d.validEntry = true) :
    readTaprootBip32Derivation d.XOnlyPubKey (serializeTaprootBip32Derivation d) =
      .ok d := by
  simp only [TaprootBip32Derivation.validEntry, Bool.and_eq_true,
    decide_eq_true_eq, List.all_eq_true, beq_iff_eq] at h
  obtain ⟨⟨⟨⟨hx, hhash⟩, hfp⟩, hpath⟩, hlen⟩ := h
  have hhash2 : ∀ x ∈ d.LeafHashes, x.length = 32 := fun x hx2 => hhash x hx2
  have hflat : d.LeafHashes.flatten.length = 32 * d.LeafHashes.length :=
    length_flatten_32 _ hhash2
  have hser : (serializeTaprootBip32Derivation d).length =
      (writeVarInt d.LeafHashes.length).length +
        (32 * d.LeafHashes.length + (4 + 4 * d.Bip32Path.length)) := by
    simp only [serializeTaprootBip32Derivation, List.length_append, hflat,
      length_flatten_map_toLE32, toLE32]
    simp
    omega
  have hmax : MaxPsbtValueLength = 4000000 := rfl
  have hn64 : d.LeafHashes.length < 18446744073709551616 := by omega
  simp only [serializeTaprootBip32Derivation, List.append_assoc,
    readTaprootBip32Derivation,
    readVarInt_writeVarInt d.LeafHashes.length _ hn64]
  rw [if_neg (by
    simp only [List.length_append, hflat, length_flatten_map_toLE32, toLE32]
    simp
    omega)]
  rw [List.drop_left' (by omega : d.LeafHashes.flatten.length = d.LeafHashes.length * 32)]
  simp only [toLE32, List.cons_append, List.nil_append]
  rw [if_pos (by rw [length_flatten_map_toLE32]; omega)]
  rw [List.take_left' (by omega : d.LeafHashes.flatten.length = d.LeafHashes.length * 32)]
  rw [chunks32_flatten _ hhash2, fromLE32_split _ hfp, readUint32s_flatten _ hpath]

end Psbt

namespace Psbt

theorem lexLt_asymm : ∀ {a b : List Nat}, lexLt a b = true → lexLt b a = false := by
  intro a
  induction a with
  | nil =>
    intro b h
    cases b with
    | nil => simp [lexLt] at h
    | cons y ys => rfl
  | cons x xs ih =>
    intro b h
    cases b with
    | nil => simp [lexLt] at h
    | cons y ys =>
      simp only [lexLt, Bool.or_eq_true, Bool.and_eq_true, beq_iff_eq,
        decide_eq_true_eq] at h
      simp only [lexLt, Bool.or_eq_false_iff, Bool.and_eq_false_iff,
        decide_eq_false_iff_not, beq_eq_false_iff_ne, ne_eq]
      rcases h with h1 | ⟨h1, h2⟩
      · exact ⟨by omega, Or.inl (by omega)⟩
      · subst h1
        exact ⟨by omega, Or.inr (ih h2)⟩

theorem lexLt_negtrans : ∀ (a b c : List Nat), lexLt b a = false →
    lexLt c b = false → lexLt c a = false := by
  intro a
  induction a with
  | nil =>
    intro b c _ _
    cases c with
    | nil => rfl
    | cons z zs => rfl
  | cons x xs ih =>
    intro b c h1 h2
    cases b with
    | nil => simp [lexLt] at h1
    | cons y ys =>
      cases c with
      | nil => simp [lexLt] at h2
      | cons z zs =>
        simp only [lexLt, Bool.or_eq_false_iff, Bool.and_eq_false_iff,
          decide_eq_false_iff_not, beq_eq_false_iff_ne, ne_eq] at h1 h2 ⊢
        obtain ⟨hyx, h1b⟩ := h1
        obtain ⟨hzy, h2b⟩ := h2
        refine ⟨by omega, ?_⟩
        by_cases hzx : z = x
        · right
          have hyx2 : y = x := by omega
          have h1c : lexLt ys xs = false := by
            rcases h1b with h | h
            · omega
            · exact h
          have h2c : lexLt zs ys = false := by
            rcases h2b with h | h
            · omega
            · exact h
          exact ih ys zs h1c h2c
        · exact Or.inl hzx

theorem bip32SorterLe_trans (a b c : Bip32Derivation) :
    bip32SorterLe a b → bip32SorterLe b c → bip32SorterLe a c := by
  simp only [bip32SorterLe, Bool.not_eq_true']
  exact fun h1 h2 => lexLt_negtrans a.PubKey b.PubKey c.PubKey h1 h2

theorem bip32SorterLe_total (a b : Bip32Derivation) :
    bip32SorterLe a b || bip32SorterLe b a := by
  simp only [bip32SorterLe, Bool.or_eq_true, Bool.not_eq_true']
  cases hl : lexLt b.PubKey a.PubKey with
  | false => exact Or.inl rfl
  | true => exact Or.inr (lexLt_asymm hl)

theorem taprootSorterLe_trans (a b c : TaprootBip32Derivation) :
    taprootSorterLe a b → taprootSorterLe b c → taprootSorterLe a c := by
  simp only [taprootSorterLe, TaprootBip32Derivation.SortBefore,
    Bool.not_eq_true']
  exact fun h1 h2 => lexLt_negtrans a.XOnlyPubKey b.XOnlyPubKey c.XOnlyPubKey h1 h2

theorem taprootSorterLe_total (a b : TaprootBip32Derivation) :
    taprootSorterLe a b || taprootSorterLe b a := by
  simp only [taprootSorterLe, TaprootBip32Derivation.SortBefore, Bool.or_eq_true,
    Bool.not_eq_true']
  cases hl : lexLt b.XOnlyPubKey a.XOnlyPubKey with
  | false => exact Or.inl rfl
  | true => exact Or.inr (lexLt_asymm hl)

end Psbt

namespace Psbt

theorem serialize_eq (po : POutput) :
    POutput.serialize po =
      (rsSegment po.RedeemScript ++ wsSegment po.WitnessScript ++
        ((po.Bip32Derivation.mergeSort bip32SorterLe).map bip32KV).flatten ++
        tikSegment po.TaprootInternalKey ++ tttSegment po.TaprootTapTree ++
        ((po.TaprootBip32Derivation.mergeSort taprootSorterLe).map tapKV).flatten,
       { po with
           Bip32Derivation := po.Bip32Derivation.mergeSort bip32SorterLe,
           TaprootBip32Derivation :=
             po.TaprootBip32Derivation.mergeSort taprootSorterLe }) := by
  cases hr : po.RedeemScript <;> cases hw : po.WitnessScript <;>
    cases hk : po.TaprootInternalKey <;> cases ht : po.TaprootTapTree <;>
    simp [POutput.serialize, rsSegment, wsSegment, tikSegment, tttSegment,
      bip32KV, tapKV, hr, hw, hk, ht] <;>
    rfl

theorem deserialize_rsSegment (po : POutput) (o : Option (List Nat))
    (rest : List Nat) (h : po.RedeemScript = none)
    (hlen : ∀ s, o = some s → s.length ≤ MaxPsbtValueLength) :
    POutput.deserialize po (rsSegment o ++ rest) =
      POutput.deserialize { po with RedeemScript := o } rest := by
  cases o with
  | none =>
    have he : { po with RedeemScript := (none : Option (List Nat)) } = po := by
      obtain ⟨rs, ws, bd, tik, ttt, tbd⟩ := po
      simp_all
    rw [he]
    simp only [rsSegment, List.nil_append]
  | some s =>
    have hout : outputStep po RedeemScriptOutputType [] s =
        .ok { po with RedeemScript := some s } := by
      simp [outputStep, h]
    have hstep := deserialize_record po RedeemScriptOutputType [] s rest
      (by decide) (by decide) (hlen s rfl)
    rw [rsSegment, hstep, hout]

theorem deserialize_wsSegment (po : POutput) (o : Option (List Nat))
    (rest : List Nat) (h : po.WitnessScript = none)
    (hlen : ∀ s, o = some s → s.length ≤ MaxPsbtValueLength) :
    POutput.deserialize po (wsSegment o ++ rest) =
      POutput.deserialize { po with WitnessScript := o } rest := by
  cases o with
  | none =>
    have he : { po with WitnessScript := (none : Option (List Nat)) } = po := by
      obtain ⟨rs, ws, bd, tik, ttt, tbd⟩ := po
      simp_all
    rw [he]
    simp only [wsSegment, List.nil_append]
  | some s =>
    have hout : outputStep po WitnessScriptOutputType [] s =
        .ok { po with WitnessScript := some s } := by
      simp [outputStep, h, RedeemScriptOutputType, WitnessScriptOutputType]
    have hstep := deserialize_record po WitnessScriptOutputType [] s rest
      (by decide) (by decide) (hlen s rfl)
    rw [wsSegment, hstep, hout]

theorem deserialize_tikSegment (po : POutput) (o : Option (List Nat))
    (rest : List Nat) (h : po.TaprootInternalKey = none)
    (hx : ∀ k, o = some k → validateXOnlyPubkey k = true) :
    POutput.deserialize po (tikSegment o ++ rest) =
      POutput.deserialize { po with TaprootInternalKey := o } rest := by
  cases o with
  | none =>
    have he : { po with TaprootInternalKey := (none : Option (List Nat)) } = po := by
      obtain ⟨rs, ws, bd, tik, ttt, tbd⟩ := po
      simp_all
    rw [he]
    simp only [tikSegment, List.nil_append]
  | some k =>
    have hk := hx k rfl
    have hkl : k.length = 32 := by
      simpa [validateXOnlyPubkey] using hk
    have hout : outputStep po TaprootInternalKeyOutputType [] k =
        .ok { po with TaprootInternalKey := some k } := by
      simp [outputStep, h, hk, RedeemScriptOutputType, WitnessScriptOutputType,
        Bip32DerivationOutputType, TaprootInternalKeyOutputType]
    have hstep := deserialize_record po TaprootInternalKeyOutputType [] k rest
      (by decide) (by decide) (by rw [hkl]; decide)
    rw [tikSegment, hstep, hout]

theorem deserialize_tttSegment (po : POutput) (o : Option (List Nat))
    (rest : List Nat) (h : po.TaprootTapTree = none)
    (hlen : ∀ s, o = some s → s.length ≤ MaxPsbtValueLength) :
    POutput.deserialize po (tttSegment o ++ rest) =
      POutput.deserialize { po with TaprootTapTree := o } rest := by
  cases o with
  | none =>
    have he : { po with TaprootTapTree := (none : Option (List Nat)) } = po := by
      obtain ⟨rs, ws, bd, tik, ttt, tbd⟩ := po
      simp_all
    rw [he]
    simp only [tttSegment, List.nil_append]
  | some s =>
    have hout : outputStep po TaprootTapTreeType [] s =
        .ok { po with TaprootTapTree := some s } := by
      simp [outputStep, h, RedeemScriptOutputType, WitnessScriptOutputType,
        Bip32DerivationOutputType, TaprootInternalKeyOutputType,
        TaprootTapTreeType]
    have hstep := deserialize_record po TaprootTapTreeType [] s rest
      (by decide) (by decide) (hlen s rfl)
    rw [tttSegment, hstep, hout]

end Psbt

namespace Psbt

theorem validatePubkey_length {pk : List Nat} (h : validatePubkey pk = true) :
    pk.length = 33 := by
  simp only [validatePubkey, Bool.and_eq_true, beq_iff_eq] at h
  exact h.1

theorem deserialize_bip32Segment :
    ∀ (es : List Bip32Derivation) (po : POutput) (rest : List Nat),
    (∀ d ∈ es, d.validEntry = true) →
    ((po.Bip32Derivation ++ es).map fun d => d.PubKey).Nodup →
    POutput.deserialize po ((es.map bip32KV).flatten ++ rest) =
      POutput.deserialize
        { po with Bip32Derivation := po.Bip32Derivation ++ es } rest := by
  intro es
  induction es with
  | nil =>
    intro po rest _ _
    have he : { po with Bip32Derivation := po.Bip32Derivation ++ [] } = po := by
      obtain ⟨rs, ws, bd, tik, ttt, tbd⟩ := po
      simp
    rw [he]
    simp only [List.map_nil, List.flatten_nil, List.nil_append]
  | cons e es ih =>
    intro po rest hval hnd
    have hv : e.validEntry = true := hval e (by simp)
    simp only [Bip32Derivation.validEntry, Bool.and_eq_true, decide_eq_true_eq,
      List.all_eq_true] at hv
    obtain ⟨⟨⟨hpk, hfp⟩, hpath⟩, hlen⟩ := hv
    have hpk33 : e.PubKey.length = 33 := validatePubkey_length hpk
    have hpath2 : ∀ x ∈ e.Bip32Path, x < 4294967296 := by
      intro x hx
      have := hpath x hx
      simpa using this
    have hnotdup : (po.Bip32Derivation.any fun x => x.PubKey == e.PubKey) = false := by
      rw [List.any_eq_false]
      intro x hx
      simp only [beq_iff_eq]
      intro heq
      have h1 : e.PubKey ∈ po.Bip32Derivation.map fun d => d.PubKey := by
        rw [← heq]
        exact List.mem_map_of_mem _ hx
      have h2 : (po.Bip32Derivation.map fun d => d.PubKey).Disjoint
          ((e :: es).map fun d => d.PubKey) := by
        have hx2 := hnd
        rw [List.map_append, List.nodup_append] at hx2
        exact hx2.2.2
      exact h2 h1 (by simp)
    have hout : outputStep po Bip32DerivationOutputType e.PubKey
        (SerializeBIP32Derivation e.MasterKeyFingerprint e.Bip32Path) =
        .ok { po with Bip32Derivation := po.Bip32Derivation ++ [e] } := by
      simp only [outputStep, RedeemScriptOutputType, WitnessScriptOutputType,
        Bip32DerivationOutputType, hpk, Bool.not_true, if_false,
        readBip32_roundtrip e.MasterKeyFingerprint e.Bip32Path hfp hpath2,
        hnotdup]
      simp
    have hstep := deserialize_record po Bip32DerivationOutputType e.PubKey
      (SerializeBIP32Derivation e.MasterKeyFingerprint e.Bip32Path)
      ((es.map bip32KV).flatten ++ rest) (by decide) (by rw [hpk33]; decide)
      (by rw [length_SerializeBIP32Derivation]; exact hlen)
    simp only [List.map_cons, List.flatten_cons, List.append_assoc]
    rw [bip32KV, hstep, hout]
    show POutput.deserialize
        { po with Bip32Derivation := po.Bip32Derivation ++ [e] }
        ((es.map bip32KV).flatten ++ rest) =
      POutput.deserialize
        { po with Bip32Derivation := po.Bip32Derivation ++ e :: es } rest
    rw [ih { po with Bip32Derivation := po.Bip32Derivation ++ [e] } rest
      (fun d hd => hval d (by simp [hd]))
      (by simpa [List.append_assoc] using hnd)]
    simp [List.append_assoc]

theorem validateXOnlyPubkey_length {pk : List Nat}
    (h : validateXOnlyPubkey pk = true) : pk.length = 32 := by
  simpa [validateXOnlyPubkey] using h

theorem deserialize_tapSegment :
    ∀ (es : List TaprootBip32Derivation) (po : POutput) (rest : List Nat),
    (∀ d ∈ es, d.validEntry = true) →
    ((po.TaprootBip32Derivation ++ es).map fun d => d.XOnlyPubKey).Nodup →
    POutput.deserialize po ((es.map tapKV).flatten ++ rest) =
      POutput.deserialize
        { po with TaprootBip32Derivation :=
            po.TaprootBip32Derivation ++ es } rest := by
  intro es
  induction es with
  | nil =>
    intro po rest _ _
    have he : { po with TaprootBip32Derivation :=
        po.TaprootBip32Derivation ++ [] } = po := by
      obtain ⟨rs, ws, bd, tik, ttt, tbd⟩ := po
      simp
    rw [he]
    simp only [List.map_nil, List.flatten_nil, List.nil_append]
  | cons e es ih =>
    intro po rest hval hnd
    have hv : e.validEntry = true := hval e (by simp)
    have hx : validateXOnlyPubkey e.XOnlyPubKey = true := by
      simp only [TaprootBip32Derivation.validEntry, Bool.and_eq_true] at hv
      exact hv.1.1.1.1
    have hlen : (serializeTaprootBip32Derivation e).length ≤ MaxPsbtValueLength := by
      simp only [TaprootBip32Derivation.validEntry, Bool.and_eq_true,
        decide_eq_true_eq] at hv
      exact hv.2
    have hx32 : e.XOnlyPubKey.length = 32 := validateXOnlyPubkey_length hx
    have hnotdup : (po.TaprootBip32Derivation.any
        fun x => x.XOnlyPubKey == e.XOnlyPubKey) = false := by
      rw [List.any_eq_false]
      intro x hx3
      simp only [beq_iff_eq]
      intro heq
      have h1 : e.XOnlyPubKey ∈
          po.TaprootBip32Derivation.map fun d => d.XOnlyPubKey := by
        rw [← heq]
        exact List.mem_map_of_mem _ hx3
      have h2 : (po.TaprootBip32Derivation.map fun d => d.XOnlyPubKey).Disjoint
          ((e :: es).map fun d => d.XOnlyPubKey) := by
        have hx4 := hnd
        rw [List.map_append, List.nodup_append] at hx4
        exact hx4.2.2
      exact h2 h1 (by simp)
    have hout : outputStep po TaprootBip32DerivationOutputType e.XOnlyPubKey
        (serializeTaprootBip32Derivation e) =
        .ok { po with TaprootBip32Derivation :=
            po.TaprootBip32Derivation ++ [e] } := by
      simp only [outputStep, RedeemScriptOutputType, WitnessScriptOutputType,
        Bip32DerivationOutputType, TaprootInternalKeyOutputType,
        TaprootTapTreeType, TaprootBip32DerivationOutputType, hx,
        Bool.not_true, if_false, readTaproot_roundtrip e hv, hnotdup]
      simp
    have hstep := deserialize_record po TaprootBip32DerivationOutputType
      e.XOnlyPubKey (serializeTaprootBip32Derivation e)
      ((es.map tapKV).flatten ++ rest) (by decide) (by rw [hx32]; decide) hlen
    simp only [List.map_cons, List.flatten_cons, List.append_assoc]
    rw [tapKV, hstep, hout]
    show POutput.deserialize
        { po with TaprootBip32Derivation := po.TaprootBip32Derivation ++ [e] }
        ((es.map tapKV).flatten ++ rest) =
      POutput.deserialize
        { po with TaprootBip32Derivation :=
            po.TaprootBip32Derivation ++ e :: es } rest
    rw [ih { po with TaprootBip32Derivation :=
        po.TaprootBip32Derivation ++ [e] } rest
      (fun d hd => hval d (by simp [hd]))
      (by simpa [List.append_assoc] using hnd)]
    simp [List.append_assoc]

end Psbt

namespace Psbt

theorem deserialize_serialize (po : POutput) (h : po.validRecord = true) :
    POutput.deserialize POutput.empty
        ((POutput.serialize po).1 ++ [separatorByte]) =
      ((POutput.serialize po).2, none) := by
  simp only [POutput.validRecord, Bool.and_eq_true, decide_eq_true_eq,
    List.all_eq_true] at h
  obtain ⟨⟨⟨⟨⟨⟨⟨hrs, hws⟩, htik⟩, httt⟩, hbv⟩, hbnd⟩, htv⟩, htnd⟩ := h
  have hrs2 : ∀ s, po.RedeemScript = some s → s.length ≤ MaxPsbtValueLength := by
    intro s hs
    rw [hs] at hrs
    simpa using hrs
  have hws2 : ∀ s, po.WitnessScript = some s → s.length ≤ MaxPsbtValueLength := by
    intro s hs
    rw [hs] at hws
    simpa using hws
  have htik2 : ∀ k, po.TaprootInternalKey = some k →
      validateXOnlyPubkey k = true := by
    intro k hk
    rw [hk] at htik
    simpa using htik
  have httt2 : ∀ s, po.TaprootTapTree = some s →
      s.length ≤ MaxPsbtValueLength := by
    intro s hs
    rw [hs] at httt
    simpa using httt
  have hpb : List.Perm (po.Bip32Derivation.mergeSort bip32SorterLe)
      po.Bip32Derivation := List.mergeSort_perm _ _
  have hpt : List.Perm (po.TaprootBip32Derivation.mergeSort taprootSorterLe)
      po.TaprootBip32Derivation := List.mergeSort_perm _ _
  have hbv2 : ∀ d ∈ po.Bip32Derivation.mergeSort bip32SorterLe,
      d.validEntry = true := by
    intro d hd
    exact hbv d (List.mem_mergeSort.mp hd)
  have htv2 : ∀ d ∈ po.TaprootBip32Derivation.mergeSort taprootSorterLe,
      d.validEntry = true := by
    intro d hd
    exact htv d (List.mem_mergeSort.mp hd)
  have hbnd2 : ((po.Bip32Derivation.mergeSort bip32SorterLe).map
      fun d => d.PubKey).Nodup :=
    ((hpb.map fun d => d.PubKey).symm).nodup hbnd
  have htnd2 : ((po.TaprootBip32Derivation.mergeSort taprootSorterLe).map
      fun d => d.XOnlyPubKey).Nodup :=
    ((hpt.map fun d => d.XOnlyPubKey).symm).nodup htnd
  rw [serialize_eq po]
  simp only [List.append_assoc]
  rw [deserialize_rsSegment POutput.empty po.RedeemScript _ rfl hrs2]
  show POutput.deserialize ⟨po.RedeemScript, none, [], none, none, []⟩ _ = _
  rw [deserialize_wsSegment ⟨po.RedeemScript, none, [], none, none, []⟩
    po.WitnessScript _ rfl hws2]
  show POutput.deserialize
    ⟨po.RedeemScript, po.WitnessScript, [], none, none, []⟩ _ = _
  rw [deserialize_bip32Segment (po.Bip32Derivation.mergeSort bip32SorterLe)
    ⟨po.RedeemScript, po.WitnessScript, [], none, none, []⟩ _ hbv2 hbnd2]
  show POutput.deserialize ⟨po.RedeemScript, po.WitnessScript,
    po.Bip32Derivation.mergeSort bip32SorterLe, none, none, []⟩ _ = _
  rw [deserialize_tikSegment ⟨po.RedeemScript, po.WitnessScript,
    po.Bip32Derivation.mergeSort bip32SorterLe, none, none, []⟩
    po.TaprootInternalKey _ rfl htik2]
  show POutput.deserialize ⟨po.RedeemScript, po.WitnessScript,
    po.Bip32Derivation.mergeSort bip32SorterLe, po.TaprootInternalKey,
    none, []⟩ _ = _
  rw [deserialize_tttSegment ⟨po.RedeemScript, po.WitnessScript,
    po.Bip32Derivation.mergeSort bip32SorterLe, po.TaprootInternalKey,
    none, []⟩ po.TaprootTapTree _ rfl httt2]
  show POutput.deserialize ⟨po.RedeemScript, po.WitnessScript,
    po.Bip32Derivation.mergeSort bip32SorterLe, po.TaprootInternalKey,
    po.TaprootTapTree, []⟩ _ = _
  rw [deserialize_tapSegment
    (po.TaprootBip32Derivation.mergeSort taprootSorterLe)
    ⟨po.RedeemScript, po.WitnessScript,
      po.Bip32Derivation.mergeSort bip32SorterLe, po.TaprootInternalKey,
      po.TaprootTapTree, []⟩ _ htv2 htnd2]
  show POutput.deserialize ⟨po.RedeemScript, po.WitnessScript,
    po.Bip32Derivation.mergeSort bip32SorterLe, po.TaprootInternalKey,
    po.TaprootTapTree, po.TaprootBip32Derivation.mergeSort taprootSorterLe⟩
    [separatorByte] = _
  rw [deserialize_separator]

end Psbt

namespace Psbt

theorem mergeSort_bip32_idem (l : List Bip32Derivation) :
    (l.mergeSort bip32SorterLe).mergeSort bip32SorterLe =
      l.mergeSort bip32SorterLe :=
  List.mergeSort_of_sorted
    (List.sorted_mergeSort bip32SorterLe_trans bip32SorterLe_total l)

theorem mergeSort_taproot_idem (l : List TaprootBip32Derivation) :
    (l.mergeSort taprootSorterLe).mergeSort taprootSorterLe =
      l.mergeSort taprootSorterLe :=
  List.mergeSort_of_sorted
    (List.sorted_mergeSort taprootSorterLe_trans taprootSorterLe_total l)

theorem serialize_serialize (po : POutput) :
    POutput.serialize ((POutput.serialize po).2) =
      ((POutput.serialize po).1, (POutput.serialize po).2) := by
  rw [serialize_eq po]
  show POutput.serialize ⟨po.RedeemScript, po.WitnessScript,
      po.Bip32Derivation.mergeSort bip32SorterLe, po.TaprootInternalKey,
      po.TaprootTapTree,
      po.TaprootBip32Derivation.mergeSort taprootSorterLe⟩ = _
  rw [serialize_eq ⟨po.RedeemScript, po.WitnessScript,
      po.Bip32Derivation.mergeSort bip32SorterLe, po.TaprootInternalKey,
      po.TaprootTapTree,
      po.TaprootBip32Derivation.mergeSort taprootSorterLe⟩]
  dsimp only
  rw [mergeSort_bip32_idem, mergeSort_taproot_idem]

theorem Extends_refl (po : POutput) : po.Extends po :=
  ⟨fun _ hv => hv, fun _ hv => hv, fun _ hv => hv, fun _ hv => hv,
   ⟨[], by simp⟩, ⟨[], by simp⟩⟩

theorem Extends_trans {po3 po2 po1 : POutput} (h32 : po3.Extends po2)
    (h21 : po2.Extends po1) : po3.Extends po1 := by
  obtain ⟨a1, a2, a3, a4, ⟨l1, hl1⟩, ⟨l2, hl2⟩⟩ := h32
  obtain ⟨b1, b2, b3, b4, ⟨m1, hm1⟩, ⟨m2, hm2⟩⟩ := h21
  refine ⟨fun v hv => a1 v (b1 v hv), fun v hv => a2 v (b2 v hv),
    fun v hv => a3 v (b3 v hv), fun v hv => a4 v (b4 v hv),
    ⟨m1 ++ l1, ?_⟩, ⟨m2 ++ l2, ?_⟩⟩
  · rw [hl1, hm1, List.append_assoc]
  · rw [hl2, hm2, List.append_assoc]

theorem extends_setRS {po : POutput} {v : List Nat}
    (h : po.RedeemScript = none) :
    POutput.Extends { po with RedeemScript := some v } po := by
  refine ⟨?_, fun w hw => hw, fun w hw => hw, fun w hw => hw,
    ⟨[], by simp⟩, ⟨[], by simp⟩⟩
  intro w hw
  rw [h] at hw
  cases hw

theorem extends_setWS {po : POutput} {v : List Nat}
    (h : po.WitnessScript = none) :
    POutput.Extends { po with WitnessScript := some v } po := by
  refine ⟨fun w hw => hw, ?_, fun w hw => hw, fun w hw => hw,
    ⟨[], by simp⟩, ⟨[], by simp⟩⟩
  intro w hw
  rw [h] at hw
  cases hw

theorem extends_setTIK {po : POutput} {v : List Nat}
    (h : po.TaprootInternalKey = none) :
    POutput.Extends { po with TaprootInternalKey := some v } po := by
  refine ⟨fun w hw => hw, fun w hw => hw, ?_, fun w hw => hw,
    ⟨[], by simp⟩, ⟨[], by simp⟩⟩
  intro w hw
  rw [h] at hw
  cases hw

theorem extends_setTTT {po : POutput} {v : List Nat}
    (h : po.TaprootTapTree = none) :
    POutput.Extends { po with TaprootTapTree := some v } po := by
  refine ⟨fun w hw => hw, fun w hw => hw, fun w hw => hw, ?_,
    ⟨[], by simp⟩, ⟨[], by simp⟩⟩
  intro w hw
  rw [h] at hw
  cases hw

theorem extends_appendB {po : POutput} {e : Bip32Derivation} :
    POutput.Extends
      { po with Bip32Derivation := po.Bip32Derivation ++ [e] } po :=
  ⟨fun _ hv => hv, fun _ hv => hv, fun _ hv => hv, fun _ hv => hv,
   ⟨[e], rfl⟩, ⟨[], by simp⟩⟩

theorem extends_appendT {po : POutput} {e : TaprootBip32Derivation} :
    POutput.Extends
      { po with TaprootBip32Derivation :=
          po.TaprootBip32Derivation ++ [e] } po :=
  ⟨fun _ hv => hv, fun _ hv => hv, fun _ hv => hv, fun _ hv => hv,
   ⟨[], by simp⟩, ⟨[e], rfl⟩⟩

theorem outputStep_extends {po po2 : POutput} {t : Nat} {kd v : List Nat}
    (h : outputStep po t kd v = .ok po2) : po2.Extends po := by
  unfold outputStep at h
  by_cases h1 : t = RedeemScriptOutputType
  · rw [if_pos h1] at h
    by_cases h2 : po.RedeemScript.isSome = true
    · rw [if_pos h2] at h
      cases h
    · rw [if_neg h2] at h
      by_cases h3 : (!kd.isEmpty) = true
      · rw [if_pos h3] at h
        cases h
      · rw [if_neg h3] at h
        cases h
        exact extends_setRS (Option.not_isSome_iff_eq_none.mp h2)
  · rw [if_neg h1] at h
    by_cases h2 : t = WitnessScriptOutputType
    · rw [if_pos h2] at h
      by_cases h3 : po.WitnessScript.isSome = true
      · rw [if_pos h3] at h
        cases h
      · rw [if_neg h3] at h
        by_cases h4 : (!kd.isEmpty) = true
        · rw [if_pos h4] at h
          cases h
        · rw [if_neg h4] at h
          cases h
          exact extends_setWS (Option.not_isSome_iff_eq_none.mp h3)
    · rw [if_neg h2] at h
      by_cases h3 : t = Bip32DerivationOutputType
      · rw [if_pos h3] at h
        by_cases h4 : (!validatePubkey kd) = true
        · rw [if_pos h4] at h
          cases h
        · rw [if_neg h4] at h
          cases hr : readBip32Derivation v with
          | error e =>
            simp only [hr] at h
            cases h
          | ok mp =>
            obtain ⟨master, path⟩ := mp
            simp only [hr] at h
            by_cases h5 : (po.Bip32Derivation.any fun x => x.PubKey == kd) = true
            · rw [if_pos h5] at h
              cases h
            · rw [if_neg h5] at h
              cases h
              exact extends_appendB
      · rw [if_neg h3] at h
        by_cases h4 : t = TaprootInternalKeyOutputType
        · rw [if_pos h4] at h
          by_cases h5 : po.TaprootInternalKey.isSome = true
          · rw [if_pos h5] at h
            cases h
          · rw [if_neg h5] at h
            by_cases h6 : (!kd.isEmpty) = true
            · rw [if_pos h6] at h
              cases h
            · rw [if_neg h6] at h
              by_cases h7 : (!validateXOnlyPubkey v) = true
              · rw [if_pos h7] at h
                cases h
              · rw [if_neg h7] at h
                cases h
                exact extends_setTIK (Option.not_isSome_iff_eq_none.mp h5)
        · rw [if_neg h4] at h
          by_cases h5 : t = TaprootTapTreeType
          · rw [if_pos h5] at h
            by_cases h6 : po.TaprootTapTree.isSome = true
            · rw [if_pos h6] at h
              cases h
            · rw [if_neg h6] at h
              by_cases h7 : (!kd.isEmpty) = true
              · rw [if_pos h7] at h
                cases h
              · rw [if_neg h7] at h
                cases h
                exact extends_setTTT (Option.not_isSome_iff_eq_none.mp h6)
          · rw [if_neg h5] at h
            by_cases h6 : t = TaprootBip32DerivationOutputType
            · rw [if_pos h6] at h
              by_cases h7 : (!validateXOnlyPubkey kd) = true
              · rw [if_pos h7] at h
                cases h
              · rw [if_neg h7] at h
                cases hr : readTaprootBip32Derivation kd v with
                | error e =>
                  simp only [hr] at h
                  cases h
                | ok d =>
                  simp only [hr] at h
                  by_cases h8 : (po.TaprootBip32Derivation.any
                      fun x => x.XOnlyPubKey == kd) = true
                  · rw [if_pos h8] at h
                    cases h
                  · rw [if_neg h8] at h
                    cases h
                    exact extends_appendT
            · rw [if_neg h6] at h
              cases h

theorem deserializeLoop_extends : ∀ (fuel : Nat) (po : POutput) (s : List Nat),
    ((deserializeLoop fuel po s).1).Extends po := by
  intro fuel
  induction fuel with
  | zero => intro po s; exact Extends_refl po
  | succ f ih =>
    intro po s
    cases hk : getKey s with
    | error e =>
      rw [deserializeLoop_getKey_error hk]
      exact Extends_refl po
    | ok p =>
      obtain ⟨k, r1⟩ := p
      cases k with
      | none =>
        rw [deserializeLoop_getKey_none hk]
        exact Extends_refl po
      | some kv =>
        obtain ⟨keyint, keydata⟩ := kv
        cases hv : readVarBytes MaxPsbtValueLength r1 with
        | error e =>
          have heq : deserializeLoop (f + 1) po s = (po, some e) := by
            rw [deserializeLoop_getKey_some hk, hv]
          rw [heq]
          exact Extends_refl po
        | ok vr =>
          obtain ⟨value, r2⟩ := vr
          cases hs : outputStep po keyint keydata value with
          | error e2 =>
            have heq : deserializeLoop (f + 1) po s = (po, some e2) := by
              rw [deserializeLoop_step hk hv, hs]
            rw [heq]
            exact Extends_refl po
          | ok po3 =>
            have heq : deserializeLoop (f + 1) po s =
                deserializeLoop f po3 r2 := by
              rw [deserializeLoop_step hk hv, hs]
            rw [heq]
            exact Extends_trans (ih po3 r2) (outputStep_extends hs)

theorem deserialize_extends (po : POutput) (s : List Nat) :
    ((POutput.deserialize po s).1).Extends po :=
  deserializeLoop_extends (s.length + 1) po s

end Psbt

namespace Psbt

unseal List.merge List.mergeSort in
/-- C1 (counterexample): the claim as stated is false — `serialize` does not
emit the terminating separator, so running `deserialize` directly on the
bytes produced by `serialize` fails (here with `Truncated`) instead of
returning the record; the input record is validly constructed. -/
theorem claim_C1_counterexample :
    POutput.validRecord { RedeemScript := some [0x51] } = true ∧
    (POutput.deserialize POutput.empty
        ((POutput.serialize { RedeemScript := some [0x51] }).1)).2 =
      some PsbtError.Truncated := by
  constructor
  · decide
  · decide

/-- C1 (amended): for every validly constructed output record, running
`deserialize` on the bytes produced by `serialize` followed by the
terminating separator byte yields exactly the record `serialize` leaves
behind, with no error; that record agrees with the original on the four
scalar fields and its two derivation lists are permutations (the canonical
sorted orders) of the original lists. -/
theorem claim_C1_roundtrip (po : POutput) (h : po.validRecord = true) :
    POutput.deserialize POutput.empty
        ((POutput.serialize po).1 ++ [separatorByte]) =
      ((POutput.serialize po).2, none) ∧
    (POutput.serialize po).2.RedeemScript = po.RedeemScript ∧
    (POutput.serialize po).2.WitnessScript = po.WitnessScript ∧
    (POutput.serialize po).2.TaprootInternalKey = po.TaprootInternalKey ∧
    (POutput.serialize po).2.TaprootTapTree = po.TaprootTapTree ∧
    List.Perm ((POutput.serialize po).2.Bip32Derivation) po.Bip32Derivation ∧
    List.Perm ((POutput.serialize po).2.TaprootBip32Derivation)
      po.TaprootBip32Derivation := by
  refine ⟨deserialize_serialize po h, ?_, ?_, ?_, ?_, ?_, ?_⟩
  · rw [serialize_eq po]
  · rw [serialize_eq po]
  · rw [serialize_eq po]
  · rw [serialize_eq po]
  · rw [serialize_eq po]
    exact List.mergeSort_perm _ _
  · rw [serialize_eq po]
    exact List.mergeSort_perm _ _

/-- C1 (witness): the amended round-trip at a record populating all six
fields, with both derivation lists stored in reverse key order. -/
theorem claim_C1_roundtrip_witness :
    samplePOutput.validRecord = true ∧
    (POutput.deserialize POutput.empty
        ((POutput.serialize samplePOutput).1 ++ [separatorByte]) =
      ((POutput.serialize samplePOutput).2, none) ∧
    (POutput.serialize samplePOutput).2.RedeemScript =
      samplePOutput.RedeemScript ∧
    (POutput.serialize samplePOutput).2.WitnessScript =
      samplePOutput.WitnessScript ∧
    (POutput.serialize samplePOutput).2.TaprootInternalKey =
      samplePOutput.TaprootInternalKey ∧
    (POutput.serialize samplePOutput).2.TaprootTapTree =
      samplePOutput.TaprootTapTree ∧
    List.Perm ((POutput.serialize samplePOutput).2.Bip32Derivation)
      samplePOutput.Bip32Derivation ∧
    List.Perm ((POutput.serialize samplePOutput).2.TaprootBip32Derivation)
      samplePOutput.TaprootBip32Derivation) :=
  ⟨by decide, claim_C1_roundtrip samplePOutput (by decide)⟩

unseal List.merge List.mergeSort in
/-- C2 (counterexample): `serialize` does not end the emitted stream with
the separator byte — the bytes of a record holding only the redeem script
`[0x51]` are `[0x01, 0x00, 0x01, 0x51]`, whose last byte is the script
byte, not the separator. -/
theorem claim_C2_counterexample :
    (POutput.serialize { RedeemScript := some [0x51] }).1 = [1, 0, 1, 0x51] ∧
    ((POutput.serialize { RedeemScript := some [0x51] }).1).getLast? ≠
      some separatorByte := by
  constructor
  · decide
  · decide

/-- C2 (amended): `serialize` emits the field records only; the
terminating separator is not written by `serialize` and must be appended by
the caller, after which `deserialize` consumes the records and the
separator with no error. -/
theorem claim_C2_caller_appends_separator (po : POutput)
    (h : po.validRecord = true) :
    (POutput.deserialize POutput.empty
        ((POutput.serialize po).1 ++ [separatorByte])).2 = none := by
  rw [deserialize_serialize po h]

/-- C2 (witness): the amended statement at the all-fields sample record. -/
theorem claim_C2_witness :
    samplePOutput.validRecord = true ∧
    (POutput.deserialize POutput.empty
        ((POutput.serialize samplePOutput).1 ++ [separatorByte])).2 = none :=
  ⟨by decide, claim_C2_caller_appends_separator samplePOutput (by decide)⟩

unseal List.merge List.mergeSort in
/-- C3 (counterexample): `serialize` is not mutation-free — it sorts the
receiver's `Bip32Derivation` slice in place, so after serializing a record
whose two entries are stored in descending key order the list order has
changed. -/
theorem claim_C3_counterexample :
    (POutput.serialize { Bip32Derivation := [entryBB, entryAA] }).2.Bip32Derivation ≠
      [entryBB, entryAA] := by
  decide

/-- C3 (amended): `serialize` mutates the record only by sorting the two
derivation lists in place: the four scalar fields are unchanged, the lists
after the call are permutations of their previous contents, and
re-serializing the mutated record reproduces the same bytes and changes
nothing further. -/
theorem claim_C3_sort_is_only_mutation (po : POutput) :
    (POutput.serialize po).2.RedeemScript = po.RedeemScript ∧
    (POutput.serialize po).2.WitnessScript = po.WitnessScript ∧
    (POutput.serialize po).2.TaprootInternalKey = po.TaprootInternalKey ∧
    (POutput.serialize po).2.TaprootTapTree = po.TaprootTapTree ∧
    List.Perm ((POutput.serialize po).2.Bip32Derivation) po.Bip32Derivation ∧
    List.Perm ((POutput.serialize po).2.TaprootBip32Derivation)
      po.TaprootBip32Derivation ∧
    POutput.serialize ((POutput.serialize po).2) =
      ((POutput.serialize po).1, (POutput.serialize po).2) := by
  refine ⟨?_, ?_, ?_, ?_, ?_, ?_, serialize_serialize po⟩
  · rw [serialize_eq po]
  · rw [serialize_eq po]
  · rw [serialize_eq po]
  · rw [serialize_eq po]
  · rw [serialize_eq po]
    exact List.mergeSort_perm _ _
  · rw [serialize_eq po]
    exact List.mergeSort_perm _ _

/-- C9: serializing the same record twice yields identical byte sequences —
the second call runs on the receiver the first call left behind (its lists
already sorted in place) and produces the same bytes. -/
theorem claim_C9_serialize_idempotent (po : POutput) :
    (POutput.serialize ((POutput.serialize po).2)).1 =
      (POutput.serialize po).1 := by
  rw [serialize_serialize]

end Psbt

namespace Psbt

/-- C4: duplicate rejection — a stream whose records parse and that carries
two RedeemScript fields fails with `DuplicateKey` at the second one, and a
stream carrying two BIP32-derivation records whose key data is the same
public key fails with `DuplicateKey` at the second one. -/
theorem claim_C4_duplicate_key (v1 v2 kd2 pk : List Nat) (fp1 fp2 : Nat)
    (p1 p2 rest1 rest2 : List Nat)
    (hv1 : v1.length ≤ MaxPsbtValueLength)
    (hv2 : v2.length ≤ MaxPsbtValueLength)
    (hkd2 : kd2.length < 18446744073709551616)
    (hpk : validatePubkey pk = true)
    (hfp1 : fp1 < 4294967296) (hp1 : ∀ x ∈ p1, x < 4294967296)
    (hlen1 : 4 + 4 * p1.length ≤ MaxPsbtValueLength)
    (hfp2 : fp2 < 4294967296) (hp2 : ∀ x ∈ p2, x < 4294967296)
    (hlen2 : 4 + 4 * p2.length ≤ MaxPsbtValueLength) :
    (POutput.deserialize POutput.empty
        (serializeKVPairWithType RedeemScriptOutputType [] v1 ++
          (serializeKVPairWithType RedeemScriptOutputType kd2 v2 ++ rest1))).2 =
      some PsbtError.DuplicateKey ∧
    (POutput.deserialize POutput.empty
        (serializeKVPairWithType Bip32DerivationOutputType pk
            (SerializeBIP32Derivation fp1 p1) ++
          (serializeKVPairWithType Bip32DerivationOutputType pk
            (SerializeBIP32Derivation fp2 p2) ++ rest2))).2 =
      some PsbtError.DuplicateKey := by
  constructor
  · have h1 : outputStep POutput.empty RedeemScriptOutputType [] v1 =
        .ok { POutput.empty with RedeemScript := some v1 } := by
      simp [outputStep, POutput.empty]
    rw [deserialize_record POutput.empty RedeemScriptOutputType [] v1 _
      (by decide) (by decide) hv1, h1]
    show (POutput.deserialize { POutput.empty with RedeemScript := some v1 }
        (serializeKVPairWithType RedeemScriptOutputType kd2 v2 ++ rest1)).2 =
      some PsbtError.DuplicateKey
    have h2 : outputStep { POutput.empty with RedeemScript := some v1 }
        RedeemScriptOutputType kd2 v2 = .error .DuplicateKey := by
      simp [outputStep, POutput.empty]
    rw [deserialize_record _ RedeemScriptOutputType kd2 v2 rest1
      (by decide) hkd2 hv2, h2]
  · have h1 : outputStep POutput.empty Bip32DerivationOutputType pk
        (SerializeBIP32Derivation fp1 p1) =
        .ok { POutput.empty with Bip32Derivation := [⟨pk, fp1, p1⟩] } := by
      simp [outputStep, POutput.empty, RedeemScriptOutputType,
        WitnessScriptOutputType, Bip32DerivationOutputType, hpk,
        readBip32_roundtrip fp1 p1 hfp1 hp1]
    rw [deserialize_record POutput.empty Bip32DerivationOutputType pk
      (SerializeBIP32Derivation fp1 p1) _ (by decide)
      (by rw [validatePubkey_length hpk]; decide)
      (by rw [length_SerializeBIP32Derivation]; exact hlen1), h1]
    show (POutput.deserialize
        { POutput.empty with Bip32Derivation := [⟨pk, fp1, p1⟩] }
        (serializeKVPairWithType Bip32DerivationOutputType pk
          (SerializeBIP32Derivation fp2 p2) ++ rest2)).2 =
      some PsbtError.DuplicateKey
    have h2 : outputStep
        { POutput.empty with Bip32Derivation := [⟨pk, fp1, p1⟩] }
        Bip32DerivationOutputType pk (SerializeBIP32Derivation fp2 p2) =
        .error .DuplicateKey := by
      simp [outputStep, POutput.empty, RedeemScriptOutputType,
        WitnessScriptOutputType, Bip32DerivationOutputType, hpk,
        readBip32_roundtrip fp2 p2 hfp2 hp2]
    rw [deserialize_record _ Bip32DerivationOutputType pk
      (SerializeBIP32Derivation fp2 p2) rest2 (by decide)
      (by rw [validatePubkey_length hpk]; decide)
      (by rw [length_SerializeBIP32Derivation]; exact hlen2), h2]

/-- C4 (witness): two concrete duplicate streams rejected. -/
theorem claim_C4_witness :
    validatePubkey key02AA = true ∧
    (POutput.deserialize POutput.empty
        (serializeKVPairWithType RedeemScriptOutputType [] [0x51] ++
          (serializeKVPairWithType RedeemScriptOutputType [] [] ++ []))).2 =
      some PsbtError.DuplicateKey ∧
    (POutput.deserialize POutput.empty
        (serializeKVPairWithType Bip32DerivationOutputType key02AA
            (SerializeBIP32Derivation 1 []) ++
          (serializeKVPairWithType Bip32DerivationOutputType key02AA
            (SerializeBIP32Derivation 2 [3]) ++ []))).2 =
      some PsbtError.DuplicateKey :=
  ⟨by decide,
   (claim_C4_duplicate_key [0x51] [] [] key02AA 1 2 [] [3] [] []
     (by decide) (by decide) (by decide) (by decide) (by decide) (by decide)
     (by decide) (by decide) (by decide) (by decide)).1,
   (claim_C4_duplicate_key [0x51] [] [] key02AA 1 2 [] [3] [] []
     (by decide) (by decide) (by decide) (by decide) (by decide) (by decide)
     (by decide) (by decide) (by decide) (by decide)).2⟩

/-- C5: key-data shape enforcement — a RedeemScript record carrying
non-empty key data fails with `InvalidKeydata`, and a BIP32-derivation
record whose key data fails the compressed-public-key check (for example a
32-byte key) fails with `InvalidKeydata`. -/
theorem claim_C5_invalid_keydata (b : Nat)
    (kbs v1 kd2 v2 rest1 rest2 : List Nat)
    (hk1 : (b :: kbs).length < 18446744073709551616)
    (hv1 : v1.length ≤ MaxPsbtValueLength)
    (hkd2 : validatePubkey kd2 = false)
    (hk2 : kd2.length < 18446744073709551616)
    (hv2 : v2.length ≤ MaxPsbtValueLength) :
    (POutput.deserialize POutput.empty
        (serializeKVPairWithType RedeemScriptOutputType (b :: kbs) v1 ++
          rest1)).2 = some PsbtError.InvalidKeydata ∧
    (POutput.deserialize POutput.empty
        (serializeKVPairWithType Bip32DerivationOutputType kd2 v2 ++
          rest2)).2 = some PsbtError.InvalidKeydata := by
  constructor
  · have h1 : outputStep POutput.empty RedeemScriptOutputType (b :: kbs) v1 =
        .error .InvalidKeydata := by
      simp [outputStep, POutput.empty]
    rw [deserialize_record POutput.empty RedeemScriptOutputType (b :: kbs) v1
      rest1 (by decide) hk1 hv1, h1]
  · have h1 : outputStep POutput.empty Bip32DerivationOutputType kd2 v2 =
        .error .InvalidKeydata := by
      simp [outputStep, POutput.empty, RedeemScriptOutputType,
        WitnessScriptOutputType, Bip32DerivationOutputType, hkd2]
    rw [deserialize_record POutput.empty Bip32DerivationOutputType kd2 v2
      rest2 (by decide) hk2 hv2, h1]

/-- C5 (witness): concrete rejections — a redeem-script record with key
data `[0]` and a BIP32 record whose key data is 32 zero bytes. -/
theorem claim_C5_witness :
    (List.replicate 32 0).length = 32 ∧
    validatePubkey (List.replicate 32 0) = false ∧
    (POutput.deserialize POutput.empty
        (serializeKVPairWithType RedeemScriptOutputType [0] [0x51] ++
          [])).2 = some PsbtError.InvalidKeydata ∧
    (POutput.deserialize POutput.empty
        (serializeKVPairWithType Bip32DerivationOutputType
          (List.replicate 32 0) [] ++ [])).2 =
      some PsbtError.InvalidKeydata :=
  ⟨by decide, by decide,
   (claim_C5_invalid_keydata 0 [] [0x51] (List.replicate 32 0) [] [] []
     (by decide) (by decide) (by decide) (by decide) (by decide)).1,
   (claim_C5_invalid_keydata 0 [] [0x51] (List.replicate 32 0) [] [] []
     (by decide) (by decide) (by decide) (by decide) (by decide)).2⟩

/-- C6: any record whose type code is none of the six output field types
and not the separator makes `deserialize` fail with `InvalidFormat`,
whatever the current record state. -/
theorem claim_C6_unknown_type_rejected (po : POutput) (t : Nat)
    (kd v rest : List Nat)
    (h1 : t ≠ RedeemScriptOutputType) (h2 : t ≠ WitnessScriptOutputType)
    (h3 : t ≠ Bip32DerivationOutputType)
    (h4 : t ≠ TaprootInternalKeyOutputType) (h5 : t ≠ TaprootTapTreeType)
    (h6 : t ≠ TaprootBip32DerivationOutputType) (hsep : t ≠ separatorByte)
    (hkd : kd.length < 18446744073709551616)
    (hv : v.length ≤ MaxPsbtValueLength) :
    (POutput.deserialize po (serializeKVPairWithType t kd v ++ rest)).2 =
      some PsbtError.InvalidPsbtFormat := by
  have hstep : outputStep po t kd v = .error .InvalidPsbtFormat := by
    simp [outputStep, h1, h2, h3, h4, h5, h6]
  rw [deserialize_record po t kd v rest hsep hkd hv, hstep]

/-- C6 (witness): type code 9 is rejected with `InvalidFormat`. -/
theorem claim_C6_witness :
    (POutput.deserialize POutput.empty
        (serializeKVPairWithType 9 [] [] ++ [])).2 =
      some PsbtError.InvalidPsbtFormat :=
  claim_C6_unknown_type_rejected POutput.empty 9 [] [] []
    (by decide) (by decide) (by decide) (by decide) (by decide) (by decide)
    (by decide) (by decide) (by decide)

/-- C7: dispatch of a Taproot-internal-key record — `DuplicateKey` when the
internal key is already set, otherwise `InvalidKeydata` on non-empty key
data, otherwise `InvalidKeydata` when the value is not a 32-byte x-only
key, and otherwise the value is stored as the internal key. -/
theorem claim_C7_taproot_internal_key_dispatch (po : POutput)
    (kd v rest : List Nat)
    (hkd : kd.length < 18446744073709551616)
    (hv : v.length ≤ MaxPsbtValueLength) :
    (po.TaprootInternalKey.isSome = true →
      (POutput.deserialize po (serializeKVPairWithType
          TaprootInternalKeyOutputType kd v ++ rest)).2 =
        some PsbtError.DuplicateKey) ∧
    (po.TaprootInternalKey = none → kd ≠ [] →
      (POutput.deserialize po (serializeKVPairWithType
          TaprootInternalKeyOutputType kd v ++ rest)).2 =
        some PsbtError.InvalidKeydata) ∧
    (po.TaprootInternalKey = none → kd = [] →
      validateXOnlyPubkey v = false →
      (POutput.deserialize po (serializeKVPairWithType
          TaprootInternalKeyOutputType kd v ++ rest)).2 =
        some PsbtError.InvalidKeydata) ∧
    (po.TaprootInternalKey = none → kd = [] →
      validateXOnlyPubkey v = true →
      POutput.deserialize po (serializeKVPairWithType
          TaprootInternalKeyOutputType kd v ++ rest) =
        POutput.deserialize
          { po with TaprootInternalKey := some v } rest) := by
  refine ⟨?_, ?_, ?_, ?_⟩
  · intro hdup
    have hstep : outputStep po TaprootInternalKeyOutputType kd v =
        .error .DuplicateKey := by
      simp [outputStep, RedeemScriptOutputType, WitnessScriptOutputType,
        Bip32DerivationOutputType, TaprootInternalKeyOutputType, hdup]
    rw [deserialize_record po TaprootInternalKeyOutputType kd v rest
      (by decide) hkd hv, hstep]
  · intro hnone hne
    have hkde : kd.isEmpty = false := by
      cases kd with
      | nil => exact absurd rfl hne
      | cons a as => rfl
    have hstep : outputStep po TaprootInternalKeyOutputType kd v =
        .error .InvalidKeydata := by
      simp [outputStep, RedeemScriptOutputType, WitnessScriptOutputType,
        Bip32DerivationOutputType, TaprootInternalKeyOutputType, hnone, hkde]
    rw [deserialize_record po TaprootInternalKeyOutputType kd v rest
      (by decide) hkd hv, hstep]
  · intro hnone hkdnil hxv
    subst hkdnil
    have hstep : outputStep po TaprootInternalKeyOutputType [] v =
        .error .InvalidKeydata := by
      simp [outputStep, RedeemScriptOutputType, WitnessScriptOutputType,
        Bip32DerivationOutputType, TaprootInternalKeyOutputType, hnone, hxv]
    rw [deserialize_record po TaprootInternalKeyOutputType [] v rest
      (by decide) (by decide) hv, hstep]
  · intro hnone hkdnil hxv
    subst hkdnil
    have hstep : outputStep po TaprootInternalKeyOutputType [] v =
        .ok { po with TaprootInternalKey := some v } := by
      simp [outputStep, RedeemScriptOutputType, WitnessScriptOutputType,
        Bip32DerivationOutputType, TaprootInternalKeyOutputType, hnone, hxv]
    rw [deserialize_record po TaprootInternalKeyOutputType [] v rest
      (by decide) (by decide) hv, hstep]

/-- C7 (witness): the four dispatch outcomes at concrete records. -/
theorem claim_C7_witness :
    (POutput.deserialize
        { POutput.empty with TaprootInternalKey := some xkeyA }
        (serializeKVPairWithType TaprootInternalKeyOutputType [] xkeyB ++
          [])).2 = some PsbtError.DuplicateKey ∧
    (POutput.deserialize POutput.empty
        (serializeKVPairWithType TaprootInternalKeyOutputType [0] xkeyB ++
          [])).2 = some PsbtError.InvalidKeydata ∧
    (POutput.deserialize POutput.empty
        (serializeKVPairWithType TaprootInternalKeyOutputType [] [1, 2] ++
          [])).2 = some PsbtError.InvalidKeydata ∧
    POutput.deserialize POutput.empty
        (serializeKVPairWithType TaprootInternalKeyOutputType [] xkeyB ++
          []) =
      POutput.deserialize
        { POutput.empty with TaprootInternalKey := some xkeyB } [] :=
  ⟨(claim_C7_taproot_internal_key_dispatch
      { POutput.empty with TaprootInternalKey := some xkeyA } [] xkeyB []
      (by decide) (by decide)).1 (by decide),
   (claim_C7_taproot_internal_key_dispatch POutput.empty [0] xkeyB []
      (by decide) (by decide)).2.1 rfl (by decide),
   (claim_C7_taproot_internal_key_dispatch POutput.empty [] [1, 2] []
      (by decide) (by decide)).2.2.1 rfl rfl (by decide),
   (claim_C7_taproot_internal_key_dispatch POutput.empty [] xkeyB []
      (by decide) (by decide)).2.2.2 rfl rfl (by decide)⟩

unseal List.merge List.mergeSort in
/-- C8: `serialize` emits present fields in the fixed type order (redeem
script, witness script, BIP32 derivations, Taproot internal key, tap tree,
Taproot derivations); the emitted BIP32 records follow a list sorted by the
`Bip32Sorter` byte-lexicographic order on public keys and the Taproot
records a list sorted by `SortBefore`, each a permutation of the stored
list; concretely, entries with keys `0x02AA…` and `0x03BB…` inserted in
reverse order are emitted with `0x02AA…` first. -/
theorem claim_C8_canonical_order (po : POutput) :
    ((POutput.serialize po).1 =
      rsSegment po.RedeemScript ++ wsSegment po.WitnessScript ++
      (((POutput.serialize po).2.Bip32Derivation).map bip32KV).flatten ++
      tikSegment po.TaprootInternalKey ++ tttSegment po.TaprootTapTree ++
      (((POutput.serialize po).2.TaprootBip32Derivation).map
        tapKV).flatten) ∧
    ((POutput.serialize po).2.Bip32Derivation).Pairwise
      (fun a b => bip32SorterLe a b = true) ∧
    List.Perm ((POutput.serialize po).2.Bip32Derivation)
      po.Bip32Derivation ∧
    ((POutput.serialize po).2.TaprootBip32Derivation).Pairwise
      (fun a b => taprootSorterLe a b = true) ∧
    List.Perm ((POutput.serialize po).2.TaprootBip32Derivation)
      po.TaprootBip32Derivation ∧
    (POutput.serialize { Bip32Derivation := [entryBB, entryAA] }).1 =
      bip32KV entryAA ++ bip32KV entryBB := by
  refine ⟨?_, ?_, ?_, ?_, ?_, by decide⟩
  · rw [serialize_eq po]
  · rw [serialize_eq po]
    exact List.sorted_mergeSort bip32SorterLe_trans bip32SorterLe_total _
  · rw [serialize_eq po]
    exact List.mergeSort_perm _ _
  · rw [serialize_eq po]
    exact List.sorted_mergeSort taprootSorterLe_trans taprootSorterLe_total _
  · rw [serialize_eq po]
    exact List.mergeSort_perm _ _

/-- C10: `deserialize` is not atomic on failure — a redeem script decoded
from an earlier record remains stored in the returned record when a later
record makes the decode fail; concretely, a valid RedeemScript record
followed by an unknown-type record yields the partially populated record
next to `InvalidFormat`. -/
theorem claim_C10_not_atomic (v t : List Nat)
    (hv : v.length ≤ MaxPsbtValueLength) :
    ((POutput.deserialize POutput.empty
        (serializeKVPairWithType RedeemScriptOutputType [] v ++ t)).2 ≠
          none →
      ((POutput.deserialize POutput.empty
        (serializeKVPairWithType RedeemScriptOutputType [] v ++
          t)).1).RedeemScript = some v) ∧
    POutput.deserialize POutput.empty
        (serializeKVPairWithType RedeemScriptOutputType [] [0x51] ++
          (serializeKVPairWithType 9 [] [] ++ [])) =
      ({ POutput.empty with RedeemScript := some [0x51] },
        some PsbtError.InvalidPsbtFormat) := by
  constructor
  · intro _
    have h1 : outputStep POutput.empty RedeemScriptOutputType [] v =
        .ok { POutput.empty with RedeemScript := some v } := by
      simp [outputStep, POutput.empty]
    rw [deserialize_record POutput.empty RedeemScriptOutputType [] v t
      (by decide) (by decide) hv, h1]
    show ((POutput.deserialize
        { POutput.empty with RedeemScript := some v } t).1).RedeemScript =
      some v
    exact (deserialize_extends _ t).1 v rfl
  · decide

/-- C10 (witness): the decoded redeem script survives the failing decode. -/
theorem claim_C10_witness :
    ((POutput.deserialize POutput.empty
        (serializeKVPairWithType RedeemScriptOutputType [] [0x51] ++
          (serializeKVPairWithType 9 [] [] ++ []))).1).RedeemScript =
      some [0x51] :=
  (claim_C10_not_atomic [0x51] (serializeKVPairWithType 9 [] [] ++ [])
    (by decide)).1 (by decide)

end Psbt
